import Mathlib

/-!
Verification development for the agent-cli repository.

This file gives a shallow embedding, in Lean 4, of the core logic of the
repository: the `Turn` protocol state machine and its helper
`handlePendingFunctionCall` (packages/core/src/core/turn.ts), the telemetry
event classes and `getDecisionFromOutcome` (same file), the `ClearcutLogger`
batching/flush/decode pipeline (telemetry clearcut logger module), and the
model-availability checker `getEffectiveModel` (modelCheck module).

Machine integers are modelled as `Nat` (the source uses JavaScript numbers
and BigInt; the decoded varint accumulates in a BigInt, so no wrap-around
occurs).  Fallible operations return `Option`.  Impure environment inputs
(the cancellation signal, `Date.now`/`Math.random` freshness, the network)
are passed explicitly as parameters.
-/

namespace AgentCli

/-! ## ClearcutLogger.decodeLogResponse (telemetry clearcut logger)

The response buffer is modelled as a list of bytes (`Nat`, each the value of
`buf.readUInt8 i`, hence in `[0, 255]`; the arithmetic below only ever uses
the low 8 bits of each entry).  `none` models the `undefined` return. -/

/-- The varint accumulation loop of `decodeLogResponse`, over the bytes after
the leading tag byte.  `sh` is the current shift (`7 * (i - 1)` in the
source), `acc` is `ms`.  The source loop runs while `cont && i < buf.length`
and returns `undefined` if it falls off the buffer with `cont` still set. -/
def varintLoop : List Nat → Nat → Nat → Option Nat
  | [], _, _ => none
  | b :: rest, sh, acc =>
    let acc' := acc ||| ((b &&& 0x7f) <<< sh)
    if b &&& 0x80 ≠ 0 then varintLoop rest (sh + 7) acc' else some acc'

/-- `ClearcutLogger.decodeLogResponse`: requires a nonempty buffer whose
first byte is the tag `8` (field 1, wiretype varint), then decodes a
little-endian base-128 varint; `none` models `undefined` (empty buffer,
wrong tag, or truncated varint). -/
def decodeLogResponse : List Nat → Option Nat
  | [] => none
  | b0 :: rest => if b0 ≠ 8 then none else varintLoop rest 0 0

/-- Specification-side value of a terminated varint group list: the integer
formed by concatenating the low 7 bits of each byte, least-significant group
first. -/
def varintVal : List Nat → Nat
  | [] => 0
  | b :: rest => (b % 128) + 128 * varintVal rest

/-- Disjoint bitwise-or is addition: if `a < 2 ^ k` then or-ing in a
multiple of `2 ^ k` is the same as adding it. -/
theorem lor_mul_pow_eq_add : ∀ (k a b : Nat), a < 2 ^ k → a ||| b * 2 ^ k = a + b * 2 ^ k := by
  intro k
  induction k with
  | zero =>
    intro a b h
    interval_cases a
    simp
  | succ k ih =>
    intro a b h
    have hpow : (2 : Nat) ^ (k + 1) = 2 * 2 ^ k := by ring
    have hq : a / 2 < 2 ^ k := by omega
    have hb2 : b * 2 ^ (k + 1) = Nat.bit false (b * 2 ^ k) := by
      simp only [Nat.bit, cond_false]
      ring
    have hih := ih (a / 2) b hq
    rcases Nat.mod_two_eq_zero_or_one a with hm | hm
    · have ha : a = Nat.bit false (a / 2) := by
        simp only [Nat.bit, cond_false]
        omega
      rw [ha, hb2, Nat.lor_bit]
      simp only [Bool.or_self, Nat.bit, cond_false, cond_true, hih]
      ring
    · have ha : a = Nat.bit true (a / 2) := by
        simp only [Nat.bit, cond_true]
        omega
      rw [ha, hb2, Nat.lor_bit]
      simp only [Bool.or_false, Nat.bit, cond_false, cond_true, hih]
      ring

/-- Low seven bits by masking equal low seven bits by `% 128`. -/
theorem land_0x7f_eq_mod (b : Nat) : b &&& 0x7f = b % 128 := by
  have h := Nat.and_pow_two_sub_one_eq_mod b 7
  norm_num at h
  exact h

/-- If every byte of `g` has its continuation bit set, the varint loop falls
off the end of the buffer and yields `none`. -/
theorem varintLoop_all_cont (g : List Nat) (hg : ∀ x ∈ g, x &&& 0x80 ≠ 0) :
    ∀ sh acc, varintLoop g sh acc = none := by
  induction g with
  | nil => intro sh acc; rfl
  | cons b rest ih =>
    intro sh acc
    have hb : b &&& 0x80 ≠ 0 := hg b (by simp)
    show (if b &&& 0x80 ≠ 0 then varintLoop rest (sh + 7) _ else _) = none
    rw [if_pos hb]
    exact ih (fun x hx => hg x (by simp [hx])) _ _

/-- The varint loop on a properly terminated group list decodes to the
concatenation of the low-7-bit groups, shifted over the accumulator. -/
theorem varintLoop_terminated (g : List Nat) :
    ∀ (t : Nat) (extra : List Nat) (sh acc : Nat),
    (∀ x ∈ g, x &&& 0x80 ≠ 0) → t &&& 0x80 = 0 → acc < 2 ^ sh →
    varintLoop (g ++ t :: extra) sh acc = some (acc + 2 ^ sh * varintVal (g ++ [t])) := by
  induction g with
  | nil =>
    intro t extra sh acc _ ht hacc
    show (if t &&& 0x80 ≠ 0 then _ else some (acc ||| (t &&& 0x7f) <<< sh)) = _
    rw [if_neg (by simp [ht])]
    rw [land_0x7f_eq_mod, Nat.shiftLeft_eq, lor_mul_pow_eq_add sh acc (t % 128) hacc]
    simp only [List.nil_append, varintVal]
    ring_nf
  | cons b rest ih =>
    intro t extra sh acc hg ht hacc
    have hb : b &&& 0x80 ≠ 0 := hg b (by simp)
    show (if b &&& 0x80 ≠ 0
        then varintLoop (rest ++ t :: extra) (sh + 7) (acc ||| (b &&& 0x7f) <<< sh)
        else _) = _
    rw [if_pos hb]
    have hacc' : acc ||| (b &&& 0x7f) <<< sh = acc + (b % 128) * 2 ^ sh := by
      rw [land_0x7f_eq_mod, Nat.shiftLeft_eq, lor_mul_pow_eq_add sh acc (b % 128) hacc]
    have hlt : acc + (b % 128) * 2 ^ sh < 2 ^ (sh + 7) := by
      have hbm : b % 128 < 128 := Nat.mod_lt _ (by norm_num)
      have hp : (2 : Nat) ^ (sh + 7) = 2 ^ sh * 128 := by ring
      nlinarith [Nat.pos_pow_of_pos sh (show 0 < 2 by norm_num)]
    rw [hacc', ih t extra (sh + 7) _ (fun x hx => hg x (by simp [hx])) ht hlt]
    simp only [varintVal, List.cons_append]
    have hp : (2 : Nat) ^ (sh + 7) = 2 ^ sh * 128 := by ring
    rw [hp]
    ring_nf
    rfl

/-! ## Turn / protocol state machine (packages/core/src/core/turn.ts)

A provider response chunk (`GenerateContentResponse`) is modelled by the
fields `Turn.run` actually reads: the parts of the first candidate's content
(the optional-chaining path `candidates?.[0]?.content?.parts` collapses to
one `Option`), and the chunk's `functionCalls` array.  Argument values
(`Record<string, unknown>`) are modelled as string key/value pairs; the
values are opaque to the code under verification. -/

/-- One entry of a `functionCalls` array.  `id`, `name` and `args` may all be
absent (`undefined`), which `Option` models. -/
structure FunctionCall where
  id : Option String
  name : Option String
  args : Option (List (String × String))
deriving DecidableEq

/-- One content part, with its `thought` marker flag and optional text. -/
structure ContentPart where
  thought : Bool
  text : Option String
deriving DecidableEq

/-- A streamed provider response chunk, restricted to the fields `Turn.run`
reads.  `parts = none` models any break in the optional chain
`candidates?.[0]?.content?.parts`. -/
structure Chunk where
  parts : Option (List ContentPart)
  functionCalls : Option (List FunctionCall)
deriving DecidableEq

/-- `ToolCallRequestInfo` from turn.ts. -/
structure ToolCallRequestInfo where
  callId : String
  name : String
  args : List (String × String)
  isClientInitiated : Bool
deriving DecidableEq

/-- The stream events `Turn.run` yields (the constructors of
`ServerAgentStreamEvent` that `run` itself can produce).  An `error` event
carries the `StructuredError` fields `message` and optional numeric
`status`. -/
inductive AgentEvent where
  | content (value : String)
  | thought (subject description : String)
  | toolCallRequest (value : ToolCallRequestInfo)
  | userCancelled
  | error (message : String) (status : Option Int)
deriving DecidableEq

/-- Index of the first occurrence of two consecutive `*` characters. -/
def findStars : List Char → Option Nat
  | '*' :: '*' :: _ => some 0
  | _ :: rest => (findStars rest).map (· + 1)
  | [] => none

/-- The thought parsing of `Turn.run`: match `/\*\*(.*?)\*\*/s` against the
raw text — the earliest `**`, then the earliest closing `**` after it — take
the trimmed group as the subject, and the trimmed text with the whole match
removed as the description. -/
def parseThought (raw : String) : String × String :=
  let cs := raw.toList
  match findStars cs with
  | none => ("", raw.trim)
  | some i =>
    match findStars (cs.drop (i + 2)) with
    | none => ("", raw.trim)
    | some d =>
      let subject := (String.mk ((cs.drop (i + 2)).take d)).trim
      let description := (String.mk (cs.take i ++ cs.drop (i + 2 + d + 2))).trim
      (subject, description)

/-- Modelled from the spec and the repository's own mock of the missing
`generateContentResponseUtilities` module: `getResponseText` joins the text
of the first candidate's parts (absent text contributing nothing) and
returns `undefined` when the chain is broken or the joined text is empty. -/
def getResponseText (c : Chunk) : Option String :=
  match c.parts with
  | none => none
  | some ps =>
    let s := String.join (ps.map (fun p => p.text.getD ""))
    if s = "" then none else some s

/-- `resp.candidates?.[0]?.content?.parts?.[0]` — the part inspected for the
`thought` marker. -/
def chunkThoughtPart (c : Chunk) : Option ContentPart :=
  c.parts.bind List.head?

/-- Whether `Turn.run` classifies a chunk as a thought chunk
(`thoughtPart?.thought` is truthy), which skips all further classification
of the chunk. -/
def isThoughtChunk (c : Chunk) : Bool :=
  match chunkThoughtPart c with
  | some tp => tp.thought
  | none => false

/-- `Turn.handlePendingFunctionCall`, with the impure
`Date.now()`/`Math.random().toString(16).slice(2)` pair abstracted into the
single `fresh` string, so a synthesized id is `name-fresh` (a `fresh` of the
form `{epoch_ms}-{random_suffix}`).  The template literal stringifies a
missing name as `"undefined"`; the JavaScript `??` keeps a provider-supplied
id, and `name || 'undefined_tool_name'` also replaces an empty name. -/
def handlePendingFunctionCall (fresh : String) (fnCall : FunctionCall) : ToolCallRequestInfo :=
  let templName := match fnCall.name with
    | some n => n
    | none => "undefined"
  let callId := match fnCall.id with
    | some i => i
    | none => templName ++ "-" ++ fresh
  let name := match fnCall.name with
    | some n => if n = "" then "undefined_tool_name" else n
    | none => "undefined_tool_name"
  let args := fnCall.args.getD []
  { callId := callId, name := name, args := args, isClientInitiated := false }

/-- Process the function-call entries of one chunk in array order.  `oracle`
supplies the fresh `Date.now()-random` strings; an oracle value is consumed
only when a call has no provider-supplied id (the `??` operator evaluates
its right operand lazily).  Returns the synthesized requests and the next
oracle index. -/
def processCalls (oracle : Nat → String) : List FunctionCall → Nat → List ToolCallRequestInfo × Nat
  | [], k => ([], k)
  | fc :: rest, k =>
    let r := handlePendingFunctionCall (oracle k) fc
    let k' := if fc.id.isNone then k + 1 else k
    let (rs, kf) := processCalls oracle rest k'
    (r :: rs, kf)

/-- The state a `Turn` instance owns: `pendingToolCalls` and
`debugResponses` (both append-only during a run), plus the next freshness
oracle index. -/
structure TurnState where
  pendingToolCalls : List ToolCallRequestInfo
  debugResponses : List Chunk
  fresh : Nat
deriving DecidableEq

/-- The state of a `Turn` right after construction. -/
def TurnState.initial : TurnState := { pendingToolCalls := [], debugResponses := [], fresh := 0 }

/-- Classify one (non-aborted) chunk exactly as the loop body of `Turn.run`:
thought chunks yield a single `Thought` event and skip everything else;
otherwise a non-empty response text yields a `Content` event and every
function-call entry yields a `ToolCallRequest` event.  Returns the yielded
events, the requests appended to `pendingToolCalls`, and the next oracle
index. -/
def processChunk (oracle : Nat → String) (k : Nat) (c : Chunk) :
    List AgentEvent × List ToolCallRequestInfo × Nat :=
  if isThoughtChunk c then
    let tp := (chunkThoughtPart c).getD { thought := true, text := none }
    let (subject, description) := parseThought (tp.text.getD "")
    ([AgentEvent.thought subject description], [], k)
  else
    let contentEvents := match getResponseText c with
      | some t => [AgentEvent.content t]
      | none => []
    let (reqs, k') := processCalls oracle (c.functionCalls.getD []) k
    (contentEvents ++ reqs.map AgentEvent.toolCallRequest, reqs, k')

/-- Result of the chunk loop: the yielded events, the final turn state, and
whether the loop terminated early because the cancellation signal was
observed. -/
structure LoopOut where
  events : List AgentEvent
  state : TurnState
  cancelled : Bool
deriving DecidableEq

/-- The `for await` loop of `Turn.run`.  `sig i` is the value of
`signal.aborted` observed at the top of the iteration for chunk `i`: if set,
the loop yields `UserCancelled` and returns without appending that chunk to
`debugResponses`; otherwise the chunk is appended and classified. -/
def runChunks (sig : Nat → Bool) (oracle : Nat → String) :
    List Chunk → Nat → TurnState → LoopOut
  | [], _, st => { events := [], state := st, cancelled := false }
  | c :: rest, i, st =>
    if sig i then
      { events := [AgentEvent.userCancelled], state := st, cancelled := true }
    else
      let st1 := { st with debugResponses := st.debugResponses ++ [c] }
      let (evs, reqs, k') := processChunk oracle st1.fresh c
      let st2 := { st1 with pendingToolCalls := st1.pendingToolCalls ++ reqs, fresh := k' }
      let out := runChunks sig oracle rest (i + 1) st2
      { out with events := evs ++ out.events }

/-- Modelled from the spec: the error produced by the missing
`utils/errors` module's `toFriendlyError`, reduced to the three observations
the catch block of `Turn.run` makes of it — whether it is an
`UnauthorizedError`, its `getErrorMessage` message, and its `status` field
when that field is present with a numeric value (`none` otherwise). -/
structure JsError where
  unauthorized : Bool
  message : String
  status : Option Int
deriving DecidableEq

/-- The complete observable outcome of one `Turn.run` invocation: the event
sequence, the final turn state, the context handed to `reportError` (`none`
when no diagnostic report was dispatched), and the exception propagated to
the caller, if any. -/
structure RunOutput where
  events : List AgentEvent
  state : TurnState
  reportContext : Option (List String × String)
  thrown : Option JsError
deriving DecidableEq

/-- `Turn.run` end to end.  `chunks` is the provider stream's yielded
sequence and `streamError` the rejection it ends with, if any (`none` for
normal completion); the error is only observed when the loop was not
already terminated by cancellation.  `abortedAtCatch` is the value of
`signal.aborted` sampled inside the catch block.  `history` is
`chat.getHistory(true)` (curated) and `req` the request parts, both opaque
here; the diagnostic report context is the curated history plus the input
parts, as built by `[...history, req]`. -/
def turnRun (sig : Nat → Bool) (oracle : Nat → String) (chunks : List Chunk)
    (streamError : Option JsError) (abortedAtCatch : Bool)
    (history : List String) (req : String) : RunOutput :=
  let out := runChunks sig oracle chunks 0 TurnState.initial
  if out.cancelled then
    { events := out.events, state := out.state, reportContext := none, thrown := none }
  else
    match streamError with
    | none =>
      { events := out.events, state := out.state, reportContext := none, thrown := none }
    | some e =>
      if e.unauthorized then
        { events := out.events, state := out.state, reportContext := none, thrown := some e }
      else if abortedAtCatch then
        { events := out.events ++ [AgentEvent.userCancelled], state := out.state,
          reportContext := none, thrown := none }
      else
        { events := out.events ++ [AgentEvent.error e.message e.status], state := out.state,
          reportContext := some (history, req), thrown := none }

/-- The function-call entries a full (uncancelled) run processes, in
processing order: the concatenation, in chunk order, of the `functionCalls`
arrays of the non-thought chunks. -/
def processedCalls (chunks : List Chunk) : List FunctionCall :=
  chunks.flatMap (fun c => if isThoughtChunk c then [] else c.functionCalls.getD [])

/-- The requests a list of calls produces, threading the freshness oracle
exactly like `processCalls`. -/
def buildReqs (oracle : Nat → String) : List FunctionCall → Nat → List ToolCallRequestInfo
  | [], _ => []
  | fc :: rest, k =>
    handlePendingFunctionCall (oracle k) fc ::
      buildReqs oracle rest (if fc.id.isNone then k + 1 else k)

/-- The `ToolCallRequest` payload of an event, when it is one. -/
def AgentEvent.toolCallRequestValue : AgentEvent → Option ToolCallRequestInfo
  | AgentEvent.toolCallRequest v => some v
  | _ => none

/-! ## Telemetry event types and decision mapping (telemetry types module) -/

/-- `ToolConfirmationOutcome`.  The declaring `tools` module is outside the
provided sources; its members are exactly the six cases enumerated by the
spec and matched by `getDecisionFromOutcome`. -/
inductive ToolConfirmationOutcome where
  | proceedOnce
  | proceedAlways
  | proceedAlwaysServer
  | proceedAlwaysTool
  | modifyWithEditor
  | cancel
deriving DecidableEq

/-- `ToolCallDecision`. -/
inductive ToolCallDecision where
  | accept
  | reject
  | modify
deriving DecidableEq

/-- `getDecisionFromOutcome`: the source `switch` maps the four proceed
outcomes to ACCEPT, ModifyWithEditor to MODIFY, and Cancel (together with
the `default` branch) to REJECT. -/
def getDecisionFromOutcome : ToolConfirmationOutcome → ToolCallDecision
  | ToolConfirmationOutcome.proceedOnce => ToolCallDecision.accept
  | ToolConfirmationOutcome.proceedAlways => ToolCallDecision.accept
  | ToolConfirmationOutcome.proceedAlwaysServer => ToolCallDecision.accept
  | ToolConfirmationOutcome.proceedAlwaysTool => ToolCallDecision.accept
  | ToolConfirmationOutcome.modifyWithEditor => ToolCallDecision.modify
  | ToolConfirmationOutcome.cancel => ToolCallDecision.reject

/-- `GenerateContentResponseUsageMetadata`, restricted to the token-count
fields the `ApiResponseEvent` constructor reads; every field may be absent. -/
structure UsageMetadata where
  promptTokenCount : Option Nat
  candidatesTokenCount : Option Nat
  cachedContentTokenCount : Option Nat
  thoughtsTokenCount : Option Nat
  toolUsePromptTokenCount : Option Nat
  totalTokenCount : Option Nat
deriving DecidableEq

/-- The `ApiResponseEvent` telemetry class (its fields other than the
construction-time timestamp). `status_code` is `Option Nat` because the
field is declared optional (`number | string`; the constructor only ever
stores the number 200). -/
structure ApiResponseEvent where
  model : String
  status_code : Option Nat
  duration_ms : Nat
  error : Option String
  input_token_count : Nat
  output_token_count : Nat
  cached_content_token_count : Nat
  thoughts_token_count : Nat
  tool_token_count : Nat
  total_token_count : Nat
  response_text : Option String
deriving DecidableEq

/-- The `ApiResponseEvent` constructor: token counts default to 0, and
`status_code` is assigned the constant 200 on every path, regardless of the
`error` argument. -/
def mkApiResponseEvent (model : String) (duration_ms : Nat)
    (usage_data : Option UsageMetadata) (response_text : Option String)
    (error : Option String) : ApiResponseEvent :=
  { model := model
    status_code := some 200
    duration_ms := duration_ms
    error := error
    input_token_count := (usage_data.bind (·.promptTokenCount)).getD 0
    output_token_count := (usage_data.bind (·.candidatesTokenCount)).getD 0
    cached_content_token_count := (usage_data.bind (·.cachedContentTokenCount)).getD 0
    thoughts_token_count := (usage_data.bind (·.thoughtsTokenCount)).getD 0
    tool_token_count := (usage_data.bind (·.toolUsePromptTokenCount)).getD 0
    total_token_count := (usage_data.bind (·.totalTokenCount)).getD 0
    response_text := response_text }

/-! ## ClearcutLogger queue, flush and time gate (telemetry clearcut module)

`enqueueLogEvent` pushes a singleton array `[{event_time_ms,
source_extension_json}]` onto the process-wide `events` queue, so the queue
is a list of such batches.  The JSON payloads are opaque strings here. -/

/-- One wrapped event `{event_time_ms, source_extension_json}`. -/
structure WrappedEvent where
  event_time_ms : Nat
  source_extension_json : String
deriving DecidableEq

/-- A queue entry as pushed by `enqueueLogEvent`: a singleton array of
wrapped events. -/
abbrev QueueItem := List WrappedEvent

/-- The mutable state of the `ClearcutLogger` singleton. -/
structure LoggerState where
  events : List QueueItem
  last_flush_time : Nat
deriving DecidableEq

/-- `flush_interval_ms = 1000 * 60`. -/
def flush_interval_ms : Nat := 1000 * 60

/-- `enqueueLogEvent`: wrap the (already JSON-serialized) event with the
current time and push it. -/
def enqueueLogEvent (st : LoggerState) (now : Nat) (json : String) : LoggerState :=
  { st with events := st.events ++ [[{ event_time_ms := now, source_extension_json := json }]] }

/-- `LogResponse`: `none` is the empty `{}` response, `some n` carries
`nextRequestWaitMs = n`. -/
abbrev LogResponse := Option Nat

/-- Outcome of the HTTPS POST to the collector. -/
inductive NetOutcome where
  | ok (buf : List Nat)
  | failed
deriving DecidableEq

/-- `flushToClearcut`: snapshot the queue and clear it, POST the snapshot,
and either decode the acknowledgement (updating `last_flush_time`) or, on
transport error, unshift the drained snapshot back ahead of whatever was
enqueued while the request was in flight (`enqueuedDuring`), swallowing the
error into an empty `LogResponse`.  The final promise-chain `catch` means
the returned promise never rejects, which the total return type models. -/
def flushToClearcut (st : LoggerState) (enqueuedDuring : List QueueItem)
    (net : NetOutcome) (now : Nat) : LoggerState × LogResponse :=
  let eventsToSend := st.events
  match net with
  | NetOutcome.failed =>
    ({ st with events := eventsToSend ++ enqueuedDuring }, none)
  | NetOutcome.ok buf =>
    ({ st with events := enqueuedDuring, last_flush_time := now },
      decodeLogResponse buf)

/-- `flushIfNeeded`: whether a flush attempt is started — only when at least
`flush_interval_ms` has elapsed since the last flush. -/
def flushIfNeeded (st : LoggerState) (now : Nat) : Bool :=
  ¬ (now - st.last_flush_time < flush_interval_ms)

/-- Effect of `logNewPromptEvent` on the queue, and whether it starts a
flush attempt: it enqueues the new-prompt record and then calls
`flushToClearcut()` unconditionally (fire-and-forget), with no elapsed-time
check. -/
def logNewPromptEvent (st : LoggerState) (now : Nat) (json : String) :
    LoggerState × Bool :=
  (enqueueLogEvent st now json, true)

/-- Effect of `logApiRequestEvent`: likewise enqueue then an unconditional
`flushToClearcut()` call. -/
def logApiRequestEvent (st : LoggerState) (now : Nat) (json : String) :
    LoggerState × Bool :=
  (enqueueLogEvent st now json, true)

/-- Effect of `logStartSessionEvent`: enqueue then an immediate
`flushToClearcut()` call. -/
def logStartSessionEvent (st : LoggerState) (now : Nat) (json : String) :
    LoggerState × Bool :=
  (enqueueLogEvent st now json, true)

/-- Effect of `logEndSessionEvent`: enqueue then an immediate
`flushToClearcut()` call. -/
def logEndSessionEvent (st : LoggerState) (now : Nat) (json : String) :
    LoggerState × Bool :=
  (enqueueLogEvent st now json, true)

/-- Effect of `logToolCallEvent`: enqueue then an immediate
`flushToClearcut()` call. -/
def logToolCallEvent (st : LoggerState) (now : Nat) (json : String) :
    LoggerState × Bool :=
  (enqueueLogEvent st now json, true)

/-- Effect of `logApiErrorEvent`: enqueue then an immediate
`flushToClearcut()` call. -/
def logApiErrorEvent (st : LoggerState) (now : Nat) (json : String) :
    LoggerState × Bool :=
  (enqueueLogEvent st now json, true)

/-! ## Model availability checker (modelCheck module) -/

/-- `AuthType` (core/contentGenerator.ts). -/
inductive AuthType where
  | loginWithGoogle
  | useAgent
  | useVertexAi
  | useOpenAI
  | useCustomAPI
deriving DecidableEq

/-- `getDefaultModelForAuthType` (config/models module). -/
def getDefaultModelForAuthType : AuthType → String
  | AuthType.useOpenAI => "gpt-4o"
  | AuthType.useCustomAPI => "gpt-4o"
  | _ => "agent-2.5-pro"

/-- `getFastModelForAuthType` (config/models module). -/
def getFastModelForAuthType : AuthType → String
  | AuthType.useOpenAI => "gpt-4o-mini"
  | AuthType.useCustomAPI => "gpt-4o-mini"
  | _ => "agent-2.5-flash"

/-- Outcome of the 1-token probe request: an HTTP status, or an exception
(network failure, or the 2-second timeout aborting the fetch). -/
inductive ProbeOutcome where
  | httpStatus (status : Nat)
  | exn
deriving DecidableEq

/-- `checkGeminiModel`: on HTTP 429 return the fallback, on any other status
return the model under test, and on any exception (the catch block) return
the model under test.  The boolean records that the probe was performed. -/
def checkGeminiModel (probe : ProbeOutcome) (modelToTest fallbackModel : String) :
    String × Bool :=
  match probe with
  | ProbeOutcome.httpStatus s => (if s = 429 then fallbackModel else modelToTest, true)
  | ProbeOutcome.exn => (modelToTest, true)

/-- `checkOpenAIModel`: identical outcome logic to the Gemini check. -/
def checkOpenAIModel (probe : ProbeOutcome) (modelToTest fallbackModel : String) :
    String × Bool :=
  match probe with
  | ProbeOutcome.httpStatus s => (if s = 429 then fallbackModel else modelToTest, true)
  | ProbeOutcome.exn => (modelToTest, true)

/-- `checkCustomAPIModel`: without a base URL no probe is possible and the
original model is returned; otherwise identical outcome logic. -/
def checkCustomAPIModel (probe : ProbeOutcome) (modelToTest fallbackModel : String)
    (baseUrl : Option String) : String × Bool :=
  match baseUrl with
  | none => (modelToTest, false)
  | some _ =>
    match probe with
    | ProbeOutcome.httpStatus s => (if s = 429 then fallbackModel else modelToTest, true)
    | ProbeOutcome.exn => (modelToTest, true)

/-- `getEffectiveModel`: skip the probe entirely when the configured model
is not the auth type's default, dispatch to the per-API check otherwise,
and never probe for `LOGIN_WITH_GOOGLE`.  Returns the chosen model and
whether a network probe was performed. -/
def getEffectiveModel (configuredModel : String) (authType : AuthType)
    (baseUrl : Option String) (probe : ProbeOutcome) : String × Bool :=
  let defaultModel := getDefaultModelForAuthType authType
  let fallbackModel := getFastModelForAuthType authType
  if configuredModel ≠ defaultModel then
    (configuredModel, false)
  else
    match authType with
    | AuthType.useAgent => checkGeminiModel probe configuredModel fallbackModel
    | AuthType.useVertexAi => checkGeminiModel probe configuredModel fallbackModel
    | AuthType.useOpenAI => checkOpenAIModel probe configuredModel fallbackModel
    | AuthType.useCustomAPI => checkCustomAPIModel probe configuredModel fallbackModel baseUrl
    | AuthType.loginWithGoogle => (configuredModel, false)

/-! ## Helper lemmas about the chunk loop -/

/-- The events classified out of a single chunk are only content, thought,
or tool-call-request events. -/
theorem mem_processChunk_events (oracle : Nat → String) (k : Nat) (c : Chunk)
    (ev : AgentEvent) (h : ev ∈ (processChunk oracle k c).1) :
    (∃ v, ev = AgentEvent.content v) ∨ (∃ s d, ev = AgentEvent.thought s d) ∨
    (∃ r, ev = AgentEvent.toolCallRequest r) := by
  unfold processChunk at h
  by_cases ht : isThoughtChunk c
  · simp only [ht, if_pos] at h
    simp at h
    exact Or.inr (Or.inl ⟨_, _, h⟩)
  · simp only [ht, if_neg, Bool.false_eq_true, not_false_eq_true] at h
    rcases List.mem_append.mp h with hc | hm
    · rcases hg : getResponseText c with _ | t <;> rw [hg] at hc
      · simp at hc
      · simp at hc
        exact Or.inl ⟨t, hc⟩
    · rcases List.mem_map.mp hm with ⟨r, _, hr⟩
      exact Or.inr (Or.inr ⟨r, hr.symm⟩)

/-- A chunk never classifies into a `UserCancelled` event. -/
theorem userCancelled_not_mem_processChunk (oracle : Nat → String) (k : Nat) (c : Chunk) :
    AgentEvent.userCancelled ∉ (processChunk oracle k c).1 := by
  intro h
  rcases mem_processChunk_events oracle k c _ h with ⟨v, hv⟩ | ⟨s, d, hv⟩ | ⟨r, hv⟩ <;>
    exact absurd hv (by simp)

/-- A chunk never classifies into an `Error` event. -/
theorem error_not_mem_processChunk (oracle : Nat → String) (k : Nat) (c : Chunk)
    (m : String) (s : Option Int) :
    AgentEvent.error m s ∉ (processChunk oracle k c).1 := by
  intro h
  rcases mem_processChunk_events oracle k c _ h with ⟨v, hv⟩ | ⟨s', d, hv⟩ | ⟨r, hv⟩ <;>
    exact absurd hv (by simp)

/-- The chunk loop never yields an `Error` event. -/
theorem error_not_mem_runChunks (sig : Nat → Bool) (oracle : Nat → String)
    (chunks : List Chunk) (m : String) (s : Option Int) :
    ∀ (i : Nat) (st : TurnState),
      AgentEvent.error m s ∉ (runChunks sig oracle chunks i st).events := by
  induction chunks with
  | nil => intro i st h; simp [runChunks] at h
  | cons c rest ih =>
    intro i st h
    by_cases hs : sig i
    · simp [runChunks, hs] at h
    · simp only [runChunks, hs, Bool.false_eq_true, if_neg, not_false_eq_true] at h
      rcases List.mem_append.mp h with h1 | h2
      · exact error_not_mem_processChunk oracle _ c m s h1
      · exact ih _ _ h2

/-- The chunk loop yields `UserCancelled` exactly when it observed the
cancellation signal. -/
theorem userCancelled_mem_runChunks_iff (sig : Nat → Bool) (oracle : Nat → String)
    (chunks : List Chunk) :
    ∀ (i : Nat) (st : TurnState),
      (AgentEvent.userCancelled ∈ (runChunks sig oracle chunks i st).events ↔
        (runChunks sig oracle chunks i st).cancelled = true) := by
  induction chunks with
  | nil => intro i st; simp [runChunks]
  | cons c rest ih =>
    intro i st
    by_cases hs : sig i
    · simp [runChunks, hs]
    · simp only [runChunks, hs, Bool.false_eq_true, if_neg, not_false_eq_true]
      rw [List.mem_append]
      constructor
      · intro h
        rcases h with h1 | h2
        · exact absurd h1 (userCancelled_not_mem_processChunk oracle _ c)
        · exact (ih _ _).mp h2
      · intro h
        exact Or.inr ((ih _ _).mpr h)

/-- With the signal never set, the loop runs to completion. -/
theorem runChunks_false_not_cancelled (oracle : Nat → String) (chunks : List Chunk) :
    ∀ (i : Nat) (st : TurnState),
      (runChunks (fun _ => false) oracle chunks i st).cancelled = false := by
  induction chunks with
  | nil => intro i st; rfl
  | cons c rest ih => intro i st; simp only [runChunks, Bool.false_eq_true, if_neg,
      not_false_eq_true]; exact ih _ _

/-- With the signal never set, every chunk is appended to the debug log, in
order. -/
theorem runChunks_false_debug (oracle : Nat → String) (chunks : List Chunk) :
    ∀ (i : Nat) (st : TurnState),
      (runChunks (fun _ => false) oracle chunks i st).state.debugResponses =
        st.debugResponses ++ chunks := by
  induction chunks with
  | nil => intro i st; simp [runChunks]
  | cons c rest ih =>
    intro i st
    simp only [runChunks, Bool.false_eq_true, if_neg, not_false_eq_true]
    rw [ih]
    simp

/-- Cutting the loop at the first index where the signal is observed: the
run equals the signal-free run of the prefix before that index, followed by
a single `UserCancelled`, with the state of the prefix run (the aborted
chunk is not appended to the debug log). -/
theorem runChunks_cancel_at (sig : Nat → Bool) (oracle : Nat → String) :
    ∀ (chunks : List Chunk) (k i : Nat) (st : TurnState),
      k < chunks.length → (∀ j, j < k → sig (i + j) = false) → sig (i + k) = true →
      runChunks sig oracle chunks i st =
        { events := (runChunks (fun _ => false) oracle (chunks.take k) i st).events
            ++ [AgentEvent.userCancelled],
          state := (runChunks (fun _ => false) oracle (chunks.take k) i st).state,
          cancelled := true } := by
  intro chunks
  induction chunks with
  | nil => intro k i st hk; simp at hk
  | cons c rest ih =>
    intro k i st hk hbefore hat
    match k with
    | 0 =>
      have hs : sig i = true := by simpa using hat
      simp [runChunks, hs]
    | k + 1 =>
      have hs : sig i = false := by simpa using hbefore 0 (Nat.succ_pos k)
      have hbefore' : ∀ j, j < k → sig (i + 1 + j) = false := by
        intro j hj
        have := hbefore (j + 1) (by omega)
        simpa [Nat.add_assoc, Nat.add_comm 1 j] using this
      have hat' : sig (i + 1 + k) = true := by
        have := hat
        simpa [Nat.add_assoc, Nat.add_comm 1 k] using this
      have hk' : k < rest.length := by simpa using hk
      simp only [List.take_succ_cons, runChunks, hs, Bool.false_eq_true, if_neg,
        not_false_eq_true]
      rw [ih k (i + 1) _ hk' hbefore' hat']
      simp [List.append_assoc]

/-- The number of function-call entries without a provider-supplied id: how
many oracle values a list of calls consumes. -/
def countIdNone (l : List FunctionCall) : Nat :=
  (l.filter (fun fc => fc.id.isNone)).length

/-- `processCalls` produces exactly the `buildReqs` requests and advances
the oracle index by the number of id-less calls. -/
theorem processCalls_eq_buildReqs (oracle : Nat → String) :
    ∀ (l : List FunctionCall) (k : Nat),
      processCalls oracle l k = (buildReqs oracle l k, k + countIdNone l) := by
  intro l
  induction l with
  | nil => intro k; simp [processCalls, buildReqs, countIdNone]
  | cons fc rest ih =>
    intro k
    simp only [processCalls, buildReqs, ih, countIdNone, List.filter_cons]
    by_cases h : fc.id.isNone
    · simp [h, countIdNone]
      omega
    · simp [h, countIdNone]

/-- `countIdNone` distributes over append. -/
theorem countIdNone_append (a b : List FunctionCall) :
    countIdNone (a ++ b) = countIdNone a + countIdNone b := by
  simp [countIdNone, List.filter_append]

/-- `buildReqs` distributes over append, threading the oracle index. -/
theorem buildReqs_append (oracle : Nat → String) :
    ∀ (a b : List FunctionCall) (k : Nat),
      buildReqs oracle (a ++ b) k = buildReqs oracle a k ++ buildReqs oracle b (k + countIdNone a) := by
  intro a
  induction a with
  | nil => intro b k; simp [buildReqs, countIdNone]
  | cons fc rest ih =>
    intro b k
    by_cases h : fc.id.isNone
    · have hc : countIdNone (fc :: rest) = countIdNone rest + 1 := by
        simp [countIdNone, List.filter_cons, h]
      simp only [List.cons_append, buildReqs, h, if_true, hc, List.append_eq]
      rw [ih b (k + 1)]
      have harith : k + 1 + countIdNone rest = k + (countIdNone rest + 1) := by omega
      rw [harith]
    · have hc : countIdNone (fc :: rest) = countIdNone rest := by
        simp [countIdNone, List.filter_cons, h]
      simp only [List.cons_append, buildReqs, h, if_false, hc, Bool.false_eq_true,
        if_neg, not_false_eq_true, List.append_eq]
      rw [ih b k]

/-- Characterization of a signal-free run: `pendingToolCalls` receives
exactly the requests built from the function-call entries of the non-thought
chunks, in order, and the `ToolCallRequest` events carry the same list. -/
theorem runChunks_false_characterize (oracle : Nat → String) :
    ∀ (chunks : List Chunk) (i : Nat) (st : TurnState),
      (runChunks (fun _ => false) oracle chunks i st).state.pendingToolCalls =
        st.pendingToolCalls ++ buildReqs oracle (processedCalls chunks) st.fresh ∧
      (runChunks (fun _ => false) oracle chunks i st).state.fresh =
        st.fresh + countIdNone (processedCalls chunks) ∧
      (runChunks (fun _ => false) oracle chunks i st).events.filterMap
          AgentEvent.toolCallRequestValue =
        buildReqs oracle (processedCalls chunks) st.fresh := by
  intro chunks
  induction chunks with
  | nil => intro i st; simp [runChunks, processedCalls, buildReqs, countIdNone]
  | cons c rest ih =>
    intro i st
    have hpc : processedCalls (c :: rest) =
        (if isThoughtChunk c then [] else c.functionCalls.getD []) ++ processedCalls rest := by
      simp [processedCalls]
    simp only [runChunks, Bool.false_eq_true, if_neg, not_false_eq_true]
    rcases hP : processChunk oracle st.fresh c with ⟨evs, reqs, k'⟩
    obtain ⟨h1, h2, h3⟩ := ih (i + 1)
      ⟨st.pendingToolCalls ++ reqs, st.debugResponses ++ [c], k'⟩
    by_cases ht : isThoughtChunk c
    · have hchunk : processChunk oracle st.fresh c =
          ([AgentEvent.thought
              (parseThought (((chunkThoughtPart c).getD
                { thought := true, text := none }).text.getD "")).1
              (parseThought (((chunkThoughtPart c).getD
                { thought := true, text := none }).text.getD "")).2], [], st.fresh) := by
        simp [processChunk, ht]
      rw [hP] at hchunk
      obtain ⟨he, hr, hk⟩ : evs = _ ∧ reqs = [] ∧ k' = st.fresh := by
        refine ⟨?_, ?_, ?_⟩ <;> simp [Prod.ext_iff] at hchunk <;> tauto
      subst hr hk he
      refine ⟨?_, ?_, ?_⟩
      · simpa [hpc, ht, buildReqs] using h1
      · simpa [hpc, ht, countIdNone] using h2
      · simp only [List.filterMap_append, hpc, ht, if_pos, List.nil_append]
        simpa [AgentEvent.toolCallRequestValue] using h3
    · have hcalls := processCalls_eq_buildReqs oracle (c.functionCalls.getD []) st.fresh
      have hchunk : processChunk oracle st.fresh c =
          ((match getResponseText c with
            | some t => [AgentEvent.content t]
            | none => []) ++
            (buildReqs oracle (c.functionCalls.getD []) st.fresh).map AgentEvent.toolCallRequest,
           buildReqs oracle (c.functionCalls.getD []) st.fresh,
           st.fresh + countIdNone (c.functionCalls.getD [])) := by
        simp [processChunk, ht, hcalls]
      rw [hP] at hchunk
      obtain ⟨he, hr, hk⟩ : evs = _ ∧ reqs = buildReqs oracle (c.functionCalls.getD []) st.fresh ∧
          k' = st.fresh + countIdNone (c.functionCalls.getD []) := by
        refine ⟨?_, ?_, ?_⟩ <;> simp [Prod.ext_iff] at hchunk <;> tauto
      subst hr hk he
      refine ⟨?_, ?_, ?_⟩
      · rw [h1]
        simp only [hpc, ht, Bool.false_eq_true, if_neg, not_false_eq_true]
        rw [buildReqs_append]
        simp [List.append_assoc]
      · rw [h2]
        simp only [hpc, ht, Bool.false_eq_true, if_neg, not_false_eq_true]
        rw [countIdNone_append]
        omega
      · have hcontent : List.filterMap AgentEvent.toolCallRequestValue
            (match getResponseText c with
              | some t => [AgentEvent.content t]
              | none => []) = [] := by
          rcases getResponseText c with _ | t <;> simp [AgentEvent.toolCallRequestValue]
        have hmapGeneral : ∀ (l : List ToolCallRequestInfo),
            List.filterMap AgentEvent.toolCallRequestValue (l.map AgentEvent.toolCallRequest) = l := by
          intro l
          induction l with
          | nil => rfl
          | cons x xs ihx => simp [AgentEvent.toolCallRequestValue, ihx]
        have hmap := hmapGeneral (buildReqs oracle (c.functionCalls.getD []) st.fresh)
        simp only [List.filterMap_append, hcontent, hmap, List.nil_append]
        rw [h3, hpc]
        simp only [ht, Bool.false_eq_true, if_neg, not_false_eq_true]
        rw [buildReqs_append]

/-! ## Helper lemmas for the model availability checker -/

/-- The Gemini check returns the fallback exactly on a 429 status, written
as a single conditional. -/
theorem checkGeminiModel_eq (probe : ProbeOutcome) (m f : String) :
    checkGeminiModel probe m f =
      ((if probe = ProbeOutcome.httpStatus 429 then f else m), true) := by
  cases probe with
  | httpStatus s =>
    by_cases hs : s = 429
    · subst hs; simp [checkGeminiModel]
    · simp [checkGeminiModel, hs]
  | exn => simp [checkGeminiModel]

/-- The OpenAI check returns the fallback exactly on a 429 status. -/
theorem checkOpenAIModel_eq (probe : ProbeOutcome) (m f : String) :
    checkOpenAIModel probe m f =
      ((if probe = ProbeOutcome.httpStatus 429 then f else m), true) := by
  cases probe with
  | httpStatus s =>
    by_cases hs : s = 429
    · subst hs; simp [checkOpenAIModel]
    · simp [checkOpenAIModel, hs]
  | exn => simp [checkOpenAIModel]

/-- The custom-API check with a base URL returns the fallback exactly on a
429 status. -/
theorem checkCustomAPIModel_eq (probe : ProbeOutcome) (m f u : String) :
    checkCustomAPIModel probe m f (some u) =
      ((if probe = ProbeOutcome.httpStatus 429 then f else m), true) := by
  cases probe with
  | httpStatus s =>
    by_cases hs : s = 429
    · subst hs; simp [checkCustomAPIModel]
    · simp [checkCustomAPIModel, hs]
  | exn => simp [checkCustomAPIModel]

/-- When probing the default model, `getEffectiveModel` either performs no
probe and returns the default, or performs the probe and returns the
429-conditional choice. -/
theorem getEffectiveModel_shape (authType : AuthType) (baseUrl : Option String)
    (probe : ProbeOutcome) :
    getEffectiveModel (getDefaultModelForAuthType authType) authType baseUrl probe
        = (getDefaultModelForAuthType authType, false) ∨
    getEffectiveModel (getDefaultModelForAuthType authType) authType baseUrl probe
        = ((if probe = ProbeOutcome.httpStatus 429 then getFastModelForAuthType authType
            else getDefaultModelForAuthType authType), true) := by
  cases authType with
  | loginWithGoogle => left; simp [getEffectiveModel]
  | useAgent => right; simp [getEffectiveModel, checkGeminiModel_eq]
  | useVertexAi => right; simp [getEffectiveModel, checkGeminiModel_eq]
  | useOpenAI => right; simp [getEffectiveModel, checkOpenAIModel_eq]
  | useCustomAPI =>
    cases baseUrl with
    | none => left; simp [getEffectiveModel, checkCustomAPIModel]
    | some u => right; simp [getEffectiveModel, checkCustomAPIModel_eq]

/-! ## Claim theorems -/

/-- C3: `decodeLogResponse` returns no value on an empty buffer, on a buffer
whose first byte is not 8, and on a buffer whose final consumed byte has its
continuation bit set; on `[0x08, 0x96, 0x01]` it returns 150; and on a
buffer starting with 8 followed by a properly terminated varint it returns
the integer formed by concatenating the low 7 bits of each consumed byte,
least-significant group first.  The embedding is a total function, so
decoding never throws. -/
theorem c3_decodeLogResponse :
    decodeLogResponse [] = none ∧
    (∀ (b0 : Nat) (rest : List Nat), b0 ≠ 8 → decodeLogResponse (b0 :: rest) = none) ∧
    (∀ (g : List Nat), (∀ x ∈ g, x &&& 0x80 ≠ 0) → decodeLogResponse (8 :: g) = none) ∧
    decodeLogResponse [0x08, 0x96, 0x01] = some 150 ∧
    (∀ (g : List Nat) (t : Nat) (extra : List Nat),
      (∀ x ∈ g, x &&& 0x80 ≠ 0) → t &&& 0x80 = 0 →
      decodeLogResponse (8 :: (g ++ t :: extra)) = some (varintVal (g ++ [t]))) := by
  refine ⟨rfl, ?_, ?_, by decide, ?_⟩
  · intro b0 rest h
    simp [decodeLogResponse, h]
  · intro g hg
    show (if (8 : Nat) ≠ 8 then none else varintLoop g 0 0) = none
    rw [if_neg (by simp)]
    exact varintLoop_all_cont g hg 0 0
  · intro g t extra hg ht
    show (if (8 : Nat) ≠ 8 then none else varintLoop (g ++ t :: extra) 0 0) = _
    rw [if_neg (by simp)]
    have h := varintLoop_terminated g t extra 0 0 hg ht (by norm_num)
    simpa using h

/-- Witness for C3 at concrete inputs: a truncated buffer decodes to no
value, and a terminated two-byte varint decodes to its group value. -/
theorem c3_decodeLogResponse_witness :
    decodeLogResponse [8, 150] = none ∧
    decodeLogResponse [8, 150, 1] = some (varintVal [150, 1]) :=
  ⟨c3_decodeLogResponse.2.2.1 [150] (by decide),
   c3_decodeLogResponse.2.2.2.2 [150] 1 [] (by decide) (by decide)⟩

/-- C4: when the POST fails, `flushToClearcut` restores the exact drained
batch at the front of the queue, in its original order and ahead of anything
enqueued during the attempt, leaves `last_flush_time` untouched, and
swallows the error into an empty `LogResponse` (the model is a total
function, so the fire-and-forget path never rejects). -/
theorem c4_flushToClearcut_failure (st : LoggerState) (enqueuedDuring : List QueueItem)
    (now : Nat) :
    flushToClearcut st enqueuedDuring NetOutcome.failed now =
      ({ events := st.events ++ enqueuedDuring, last_flush_time := st.last_flush_time },
        (none : LogResponse)) := by
  cases st
  rfl

/-- C5: contrary to the time-gating the class documents (and which
`flushIfNeeded` implements), `logNewPromptEvent` and `logApiRequestEvent`
start a flush attempt unconditionally: one second after a flush, both
request a flush even though `flushIfNeeded` would not (the session and
tool/error events also flush immediately, as specified). -/
theorem c5_flush_gate_divergence :
    (logNewPromptEvent { events := [], last_flush_time := 0 } 1000 "p").2 = true ∧
    (logApiRequestEvent { events := [], last_flush_time := 0 } 1000 "r").2 = true ∧
    flushIfNeeded { events := [], last_flush_time := 0 } 1000 = false ∧
    (logStartSessionEvent { events := [], last_flush_time := 0 } 1000 "s").2 = true ∧
    (logEndSessionEvent { events := [], last_flush_time := 0 } 1000 "e").2 = true ∧
    (logToolCallEvent { events := [], last_flush_time := 0 } 1000 "t").2 = true ∧
    (logApiErrorEvent { events := [], last_flush_time := 0 } 1000 "x").2 = true := by
  refine ⟨rfl, rfl, ?_, rfl, rfl, rfl, rfl⟩
  decide

/-- C8: a function-call entry with a missing name synthesizes the sentinel
name `undefined_tool_name`, and a missing args object synthesizes the empty
mapping (never an absent value: the field is total). -/
theorem c8_sentinel_defaults (fresh : String) (fnCall : FunctionCall) :
    (fnCall.name = none →
      (handlePendingFunctionCall fresh fnCall).name = "undefined_tool_name") ∧
    (fnCall.args = none →
      (handlePendingFunctionCall fresh fnCall).args = []) := by
  constructor
  · intro h
    simp [handlePendingFunctionCall, h]
  · intro h
    simp [handlePendingFunctionCall, h]

/-- Witness for C8 at a concrete entry with both name and args missing. -/
theorem c8_sentinel_defaults_witness :
    (handlePendingFunctionCall "123-abc"
      { id := some "fc3", name := none, args := none }).name = "undefined_tool_name" ∧
    (handlePendingFunctionCall "123-abc"
      { id := some "fc3", name := none, args := none }).args = [] :=
  ⟨(c8_sentinel_defaults "123-abc" { id := some "fc3", name := none, args := none }).1 rfl,
   (c8_sentinel_defaults "123-abc" { id := some "fc3", name := none, args := none }).2 rfl⟩

/-- C9: `getDecisionFromOutcome` is a total function on the outcome
enumeration (the Lean function is total and deterministic by construction):
the four proceed outcomes map to ACCEPT, ModifyWithEditor maps to MODIFY
(not to REJECT), and Cancel — the remaining case, which the source merges
with the `default` branch — maps to REJECT. -/
theorem c9_decision_mapping :
    getDecisionFromOutcome ToolConfirmationOutcome.proceedOnce = ToolCallDecision.accept ∧
    getDecisionFromOutcome ToolConfirmationOutcome.proceedAlways = ToolCallDecision.accept ∧
    getDecisionFromOutcome ToolConfirmationOutcome.proceedAlwaysServer = ToolCallDecision.accept ∧
    getDecisionFromOutcome ToolConfirmationOutcome.proceedAlwaysTool = ToolCallDecision.accept ∧
    getDecisionFromOutcome ToolConfirmationOutcome.modifyWithEditor = ToolCallDecision.modify ∧
    getDecisionFromOutcome ToolConfirmationOutcome.modifyWithEditor ≠ ToolCallDecision.reject ∧
    getDecisionFromOutcome ToolConfirmationOutcome.cancel = ToolCallDecision.reject := by
  refine ⟨rfl, rfl, rfl, rfl, rfl, ?_, rfl⟩
  decide

/-- C10: the `ApiResponseEvent` constructor stores `status_code = 200` on
every input — in particular also when a non-empty error string is
supplied. -/
theorem c10_apiResponse_status_always_200 (model : String) (duration_ms : Nat)
    (usage_data : Option UsageMetadata) (response_text error : Option String) :
    (mkApiResponseEvent model duration_ms usage_data response_text error).status_code =
      some 200 := rfl

/-- C1: if the cancellation signal is already set when chunk `k` is about to
be processed (and was not set for any earlier chunk), the run equals the
signal-free run of the first `k` chunks followed by exactly one
`UserCancelled` event (the prefix yields no `UserCancelled` of its own), the
sequence terminates with no report and no exception regardless of how the
stream would have ended, chunk `k` is not appended to `debugResponses`, and
the debug log holds exactly the earlier chunks. -/
theorem c1_cancellation_truncates_run (sig : Nat → Bool) (oracle : Nat → String)
    (chunks : List Chunk) (streamError : Option JsError) (abortedAtCatch : Bool)
    (history : List String) (req : String) (k : Nat) (hk : k < chunks.length)
    (hbefore : ∀ j, j < k → sig j = false) (hat : sig k = true) :
    turnRun sig oracle chunks streamError abortedAtCatch history req =
      { events := (runChunks (fun _ => false) oracle (chunks.take k) 0 TurnState.initial).events
          ++ [AgentEvent.userCancelled]
        state := (runChunks (fun _ => false) oracle (chunks.take k) 0 TurnState.initial).state
        reportContext := none
        thrown := none } ∧
    AgentEvent.userCancelled ∉
      (runChunks (fun _ => false) oracle (chunks.take k) 0 TurnState.initial).events ∧
    (runChunks (fun _ => false) oracle (chunks.take k) 0 TurnState.initial).state.debugResponses
      = chunks.take k := by
  have hcut := runChunks_cancel_at sig oracle chunks k 0 TurnState.initial hk
    (by simpa using hbefore) (by simpa using hat)
  refine ⟨?_, ?_, ?_⟩
  · unfold turnRun
    rw [hcut]
    simp
  · have h := userCancelled_mem_runChunks_iff (fun _ => false) oracle (chunks.take k) 0
      TurnState.initial
    rw [runChunks_false_not_cancelled] at h
    simp only [Bool.false_eq_true, iff_false] at h
    exact h
  · have h := runChunks_false_debug oracle (chunks.take k) 0 TurnState.initial
    simpa [TurnState.initial] using h

/-- Witness for C1: the signal set from the start cancels a one-chunk run
immediately, with an empty debug log. -/
theorem c1_cancellation_witness :
    turnRun (fun _ => true) (fun _ => "0") [{ parts := none, functionCalls := none }]
        none false [] "" =
      { events := [AgentEvent.userCancelled]
        state := TurnState.initial
        reportContext := none
        thrown := none } ∧
    AgentEvent.userCancelled ∉
      (runChunks (fun _ => false) (fun _ => "0")
        (List.take 0 [{ parts := none, functionCalls := none }]) 0 TurnState.initial).events ∧
    (runChunks (fun _ => false) (fun _ => "0")
      (List.take 0 [{ parts := none, functionCalls := none }]) 0
        TurnState.initial).state.debugResponses =
      List.take 0 [{ parts := none, functionCalls := none }] :=
  c1_cancellation_truncates_run (fun _ => true) (fun _ => "0")
    [{ parts := none, functionCalls := none }] none false [] "" 0
    (by decide) (fun j hj => absurd hj (Nat.not_lt_zero j)) rfl

/-- C2: when the stream rejects (and the loop was not already cancelled):
an unauthorized error propagates to the caller with no `Error` event and no
report; a non-auth error with the signal unset yields exactly one terminal
`Error` event carrying the message and numeric status, and dispatches
exactly one diagnostic report holding the curated history plus the input
parts; a non-auth error with the signal set yields `UserCancelled` instead,
with no report. -/
theorem c2_failure_path (sig : Nat → Bool) (oracle : Nat → String) (chunks : List Chunk)
    (e : JsError) (abortedAtCatch : Bool) (history : List String) (req : String)
    (hnc : (runChunks sig oracle chunks 0 TurnState.initial).cancelled = false) :
    (e.unauthorized = true →
      turnRun sig oracle chunks (some e) abortedAtCatch history req =
        { events := (runChunks sig oracle chunks 0 TurnState.initial).events
          state := (runChunks sig oracle chunks 0 TurnState.initial).state
          reportContext := none
          thrown := some e }) ∧
    (e.unauthorized = false → abortedAtCatch = false →
      turnRun sig oracle chunks (some e) abortedAtCatch history req =
        { events := (runChunks sig oracle chunks 0 TurnState.initial).events
            ++ [AgentEvent.error e.message e.status]
          state := (runChunks sig oracle chunks 0 TurnState.initial).state
          reportContext := some (history, req)
          thrown := none } ∧
      (turnRun sig oracle chunks (some e) abortedAtCatch history req).events.count
        (AgentEvent.error e.message e.status) = 1) ∧
    (e.unauthorized = false → abortedAtCatch = true →
      turnRun sig oracle chunks (some e) abortedAtCatch history req =
        { events := (runChunks sig oracle chunks 0 TurnState.initial).events
            ++ [AgentEvent.userCancelled]
          state := (runChunks sig oracle chunks 0 TurnState.initial).state
          reportContext := none
          thrown := none } ∧
      (turnRun sig oracle chunks (some e) abortedAtCatch history req).events.count
        AgentEvent.userCancelled = 1) := by
  refine ⟨?_, ?_, ?_⟩
  · intro hu
    unfold turnRun
    simp [hnc, hu]
  · intro hu hab
    have heq : turnRun sig oracle chunks (some e) abortedAtCatch history req =
        { events := (runChunks sig oracle chunks 0 TurnState.initial).events
            ++ [AgentEvent.error e.message e.status]
          state := (runChunks sig oracle chunks 0 TurnState.initial).state
          reportContext := some (history, req)
          thrown := none } := by
      unfold turnRun
      simp [hnc, hu, hab]
    refine ⟨heq, ?_⟩
    rw [heq]
    simp only [List.count_append]
    rw [List.count_eq_zero.mpr
      (error_not_mem_runChunks sig oracle chunks e.message e.status 0 TurnState.initial)]
    simp
  · intro hu hab
    have heq : turnRun sig oracle chunks (some e) abortedAtCatch history req =
        { events := (runChunks sig oracle chunks 0 TurnState.initial).events
            ++ [AgentEvent.userCancelled]
          state := (runChunks sig oracle chunks 0 TurnState.initial).state
          reportContext := none
          thrown := none } := by
      unfold turnRun
      simp [hnc, hu, hab]
    refine ⟨heq, ?_⟩
    rw [heq]
    simp only [List.count_append]
    have hmem : AgentEvent.userCancelled ∉
        (runChunks sig oracle chunks 0 TurnState.initial).events := by
      rw [userCancelled_mem_runChunks_iff]
      simp [hnc]
    rw [List.count_eq_zero.mpr hmem]
    simp

/-- Witness for C2: an empty stream rejecting with a non-auth error while
the signal is unset produces exactly the `Error` event and the report. -/
theorem c2_failure_path_witness :
    turnRun (fun _ => false) (fun _ => "0") []
        (some { unauthorized := false, message := "API Error", status := some 500 })
        false ["history-entry"] "req-parts" =
      { events := [AgentEvent.error "API Error" (some 500)]
        state := TurnState.initial
        reportContext := some (["history-entry"], "req-parts")
        thrown := none } ∧
    (turnRun (fun _ => false) (fun _ => "0") []
        (some { unauthorized := false, message := "API Error", status := some 500 })
        false ["history-entry"] "req-parts").events.count
      (AgentEvent.error "API Error" (some 500)) = 1 :=
  (c2_failure_path (fun _ => false) (fun _ => "0") []
    { unauthorized := false, message := "API Error", status := some 500 }
    false ["history-entry"] "req-parts" rfl).2.1 rfl rfl

/-- C6 counterexample: two function calls in the same chunk that carry the
same provider-supplied id produce two distinct `ToolCallRequest` events
whose `callId` fields are equal, so callIds are not unconditionally distinct
within a turn. -/
theorem c6_counterexample :
    (turnRun (fun _ => false) (fun k => toString k)
      [{ parts := none
         functionCalls := some [
           { id := some "x", name := some "a", args := none },
           { id := some "x", name := some "b", args := none }] }]
      none false [] "").events =
      [AgentEvent.toolCallRequest
        { callId := "x", name := "a", args := [], isClientInitiated := false },
       AgentEvent.toolCallRequest
        { callId := "x", name := "b", args := [], isClientInitiated := false }] ∧
    ({ callId := "x", name := "a", args := [], isClientInitiated := false } :
        ToolCallRequestInfo) ≠
      { callId := "x", name := "b", args := [], isClientInitiated := false } ∧
    ({ callId := "x", name := "a", args := [], isClientInitiated := false } :
        ToolCallRequestInfo).callId =
      ({ callId := "x", name := "b", args := [], isClientInitiated := false } :
        ToolCallRequestInfo).callId := by
  refine ⟨?_, by decide, rfl⟩
  rfl

/-- C6 (amended): a full run appends to `pendingToolCalls` — and yields as
`ToolCallRequest` events — exactly the requests synthesized from the
function-call entries of the non-thought chunks, in chunk/array order, each
with the provider-supplied id or, when that is absent, the
`name-{epoch_ms}-{random_suffix}` id drawn from the freshness source; and
whenever the callIds so derived are pairwise distinct (in particular when
provider ids do not repeat and the timestamp/random pairs are fresh), any
two distinct requests of the turn have distinct callIds. -/
theorem c6_callIds_unique_amended (oracle : Nat → String) (chunks : List Chunk)
    (history : List String) (req : String) :
    (turnRun (fun _ => false) oracle chunks none false history req).state.pendingToolCalls =
      buildReqs oracle (processedCalls chunks) 0 ∧
    (turnRun (fun _ => false) oracle chunks none false history req).events.filterMap
      AgentEvent.toolCallRequestValue = buildReqs oracle (processedCalls chunks) 0 ∧
    (((buildReqs oracle (processedCalls chunks) 0).map ToolCallRequestInfo.callId).Nodup →
      ∀ r1 ∈ (turnRun (fun _ => false) oracle chunks none false history req).state.pendingToolCalls,
      ∀ r2 ∈ (turnRun (fun _ => false) oracle chunks none false history req).state.pendingToolCalls,
        r1 ≠ r2 → r1.callId ≠ r2.callId) := by
  obtain ⟨h1, h2, h3⟩ := runChunks_false_characterize oracle chunks 0 TurnState.initial
  have hturn : turnRun (fun _ => false) oracle chunks none false history req =
      { events := (runChunks (fun _ => false) oracle chunks 0 TurnState.initial).events
        state := (runChunks (fun _ => false) oracle chunks 0 TurnState.initial).state
        reportContext := none
        thrown := none } := by
    unfold turnRun
    simp [runChunks_false_not_cancelled]
  have hpending : (turnRun (fun _ => false) oracle chunks none false history req).state.pendingToolCalls =
      buildReqs oracle (processedCalls chunks) 0 := by
    rw [hturn]
    simpa [TurnState.initial] using h1
  refine ⟨hpending, ?_, ?_⟩
  · rw [hturn]
    simpa [TurnState.initial] using h3
  · intro hnd r1 hr1 r2 hr2 hne hcid
    rw [hpending] at hr1 hr2
    exact hne (List.inj_on_of_nodup_map hnd hr1 hr2 hcid)

/-- Witness for C6 (amended): two id-less calls sharing a name in one chunk
receive the two distinct synthesized callIds `t-0` and `t-1`. -/
theorem c6_callIds_unique_witness :
    ({ callId := "t-0", name := "t", args := [], isClientInitiated := false } :
        ToolCallRequestInfo).callId ≠
      ({ callId := "t-1", name := "t", args := [], isClientInitiated := false } :
        ToolCallRequestInfo).callId :=
  (c6_callIds_unique_amended (fun k => toString k)
    [{ parts := none
       functionCalls := some [
         { id := none, name := some "t", args := none },
         { id := none, name := some "t", args := none }] }] [] "").2.2
    (by decide)
    { callId := "t-0", name := "t", args := [], isClientInitiated := false } (by decide)
    { callId := "t-1", name := "t", args := [], isClientInitiated := false } (by decide)
    (by decide)

/-- C7: `getEffectiveModel` returns a non-default configured model unchanged
without probing; when it probes, it returns the auth type's fast fallback
exactly on HTTP 429 and the configured model on every other outcome
(success, other status, timeout/exception).  The embedding is a total
function: the check never raises. -/
theorem c7_getEffectiveModel (configuredModel : String) (authType : AuthType)
    (baseUrl : Option String) (probe : ProbeOutcome) :
    (configuredModel ≠ getDefaultModelForAuthType authType →
      getEffectiveModel configuredModel authType baseUrl probe = (configuredModel, false)) ∧
    (∀ res, getEffectiveModel configuredModel authType baseUrl probe = (res, true) →
      (res = getFastModelForAuthType authType ↔ probe = ProbeOutcome.httpStatus 429) ∧
      (probe ≠ ProbeOutcome.httpStatus 429 → res = configuredModel)) := by
  constructor
  · intro hne
    simp [getEffectiveModel, hne]
  · intro res h
    by_cases hc : configuredModel = getDefaultModelForAuthType authType
    · subst hc
      have hfast : getDefaultModelForAuthType authType ≠ getFastModelForAuthType authType := by
        cases authType <;> decide
      rcases getEffectiveModel_shape authType baseUrl probe with hs | hs
      · rw [hs] at h
        exact absurd (congrArg Prod.snd h) (by simp)
      · rw [hs] at h
        have hres : (if probe = ProbeOutcome.httpStatus 429 then getFastModelForAuthType authType
            else getDefaultModelForAuthType authType) = res := congrArg Prod.fst h
        by_cases hp : probe = ProbeOutcome.httpStatus 429
        · rw [if_pos hp] at hres
          subst hres
          exact ⟨⟨fun _ => hp, fun _ => rfl⟩, fun hne => absurd hp hne⟩
        · rw [if_neg hp] at hres
          subst hres
          exact ⟨⟨fun hf => absurd hf hfast, fun h429 => absurd h429 hp⟩, fun _ => rfl⟩
    · simp [getEffectiveModel, hc] at h

/-- Witness for C7: an explicitly non-default model bypasses the probe, and
the default Gemini model is downgraded to the flash model on a 429. -/
theorem c7_getEffectiveModel_witness :
    getEffectiveModel "my-own-model" AuthType.useAgent none ProbeOutcome.exn =
      ("my-own-model", false) ∧
    ("agent-2.5-flash" = getFastModelForAuthType AuthType.useAgent ↔
      ProbeOutcome.httpStatus 429 = ProbeOutcome.httpStatus 429) :=
  ⟨(c7_getEffectiveModel "my-own-model" AuthType.useAgent none ProbeOutcome.exn).1 (by decide),
   ((c7_getEffectiveModel "agent-2.5-pro" AuthType.useAgent none
      (ProbeOutcome.httpStatus 429)).2 "agent-2.5-flash" (by decide)).1⟩

end AgentCli
